import Mathlib

/-!
Verification of the `link-bridge` redirect-stub generator.

The development shallowly embeds the three source files of the crate:
`src/redirector/url_path.rs` (path validation and normalization),
`src/redirector.rs` (short-name generation, HTML rendering, and the
registry-backed `write_redirect` orchestration) and proves the spec's
claims about them.  Rust strings are modelled as Lean `String`
(operated on through `.data : List Char`), machine integers as `Nat`
with explicit reductions `% 2 ^ 16` / `% 2 ^ 64` where the code uses
`u16` / `u64`, and filesystem effects as explicit state passing over
a small filesystem record.
-/

namespace LinkBridge

/-- Decidable equality for `Except`, used to evaluate the embedded
fallible operations on concrete inputs. -/
instance {ε α : Type} [DecidableEq ε] [DecidableEq α] :
    DecidableEq (Except ε α) := fun
  | .ok a, .ok b =>
      if h : a = b then .isTrue (by rw [h]) else
        .isFalse (by intro hc; cases hc; exact h rfl)
  | .ok _, .error _ => .isFalse (by intro hc; cases hc)
  | .error _, .ok _ => .isFalse (by intro hc; cases hc)
  | .error e, .error f =>
      if h : e = f then .isTrue (by rw [h]) else
        .isFalse (by intro hc; cases hc; exact h rfl)

/-! ## UrlPath: validation and normalization (`src/redirector/url_path.rs`) -/

/-- Error type of `UrlPathError` in `url_path.rs`: a single variant
`InvalidPath` carrying the offending input string. -/
inductive UrlPathError where
  | InvalidPath : String → UrlPathError
deriving DecidableEq, Repr

/-- Character class `[^/;#?]` of the validation regex: any character
other than a slash, semicolon, hash or question mark. -/
def isSegChar (c : Char) : Bool :=
  !(c = '/' || c = ';' || c = '#' || c = '?')

/-- States of the deterministic matcher for the body
`[^/;#?]+(?:/[^/;#?]+)*/?` of the validation regex
(deterministic because the segment class excludes `/`). -/
inductive BodyState where
  | init       -- nothing of the body consumed yet
  | inSeg      -- last character consumed was a segment character
  | afterSlash -- last character consumed was a separating or trailing slash
deriving DecidableEq, Repr

/-- Transition function of the body matcher. -/
def bodyStep : BodyState → Char → Option BodyState
  | .init, c => if isSegChar c then some .inSeg else none
  | .inSeg, c =>
      if isSegChar c then some .inSeg
      else if c = '/' then some .afterSlash else none
  | .afterSlash, c => if isSegChar c then some .inSeg else none

/-- Accepting states: at least one full segment must have been read. -/
def bodyAccept : BodyState → Bool
  | .init => false
  | .inSeg => true
  | .afterSlash => true

/-- Run the body matcher over a character list. -/
def bodyMatch : BodyState → List Char → Bool
  | st, [] => bodyAccept st
  | st, c :: cs =>
      match bodyStep st c with
      | none => false
      | some st2 => bodyMatch st2 cs

/-- The validation regex `^/?[^/;#?]+(?:/[^/;#?]+)*/?$` of
`UrlPath::new` (`url_path.rs` line 61): an optional leading slash
followed by the body. -/
def reMatch (s : String) : Bool :=
  match s.data with
  | [] => bodyMatch .init []
  | c :: rest =>
      if c = '/' then bodyMatch .init rest else bodyMatch .init (c :: rest)

/-- The validated, normalized URL path (`UrlPath` newtype over `String`);
`default` is the empty string as in the derived Rust `Default`. -/
structure UrlPath where
  val : String
deriving DecidableEq, Repr

/-- `UrlPath::default()`: wraps the empty string. -/
def UrlPath.default : UrlPath := ⟨""⟩

/-- Rust `path.starts_with('/')` on our model. -/
def startsWithSlash (s : String) : Bool := s.data.head? == some '/'

/-- Rust `path.ends_with('/')` on our model. -/
def endsWithSlash (s : String) : Bool := s.data.getLast? == some '/'

/-- First normalization step of `UrlPath::new`: `path.insert(0, '/')`
when the path does not start with a slash (`url_path.rs` lines 68–70). -/
def addLeading (s : String) : String :=
  if startsWithSlash s then s else "/" ++ s

/-- Second normalization step of `UrlPath::new`: `path.push('/')` when
the path does not end with a slash (`url_path.rs` lines 72–74). -/
def addTrailing (s : String) : String :=
  if endsWithSlash s then s else s ++ "/"

/-- `UrlPath::new` (`url_path.rs` lines 60–77): reject unless the regex
matches, then insert a leading `/` if missing and append a trailing `/`
if missing. -/
def UrlPath.new (path : String) : Except UrlPathError UrlPath :=
  if reMatch path then
    .ok ⟨addTrailing (addLeading path)⟩
  else
    .error (.InvalidPath path)

/-! ## Short file names (`Redirector::generate_short_file_name`) -/

/-- UTF-16 code units of one character, as in Rust's `str::encode_utf16`:
characters below `0x10000` are one unit, others a surrogate pair. -/
def utf16Units (c : Char) : List Nat :=
  if c.toNat < 65536 then [c.toNat]
  else [55296 + (c.toNat - 65536) / 1024, 56320 + (c.toNat - 65536) % 1024]

/-- The full mathematical sum of the UTF-16 code units of a string
(this is the quantity the spec describes). -/
def utf16Sum (cs : List Char) : Nat :=
  ((cs.map utf16Units).flatten).sum

/-- The sum as the code computes it: `encode_utf16().iter().sum::<u16>()`
accumulates in a 16-bit integer, so every addition wraps modulo `2 ^ 16`. -/
def utf16SumU16 (cs : List Char) : Nat :=
  ((cs.map utf16Units).flatten).foldl (fun a u => (a + u) % 65536) 0

/-- Digit alphabet of the `base62` crate's standard encoding, in order
`0-9A-Za-z`. -/
def base62Char (d : Nat) : Char :=
  if d < 10 then Char.ofNat (48 + d)
  else if d < 36 then Char.ofNat (65 + (d - 10))
  else Char.ofNat (97 + (d - 36))

/-- One division step per base-62 digit; the first argument is
recursion fuel, chosen at least as large as the digit count. -/
def base62DigitsAux : Nat → Nat → List Nat
  | 0, _ => []
  | fuel + 1, n => if n = 0 then [] else (n % 62) :: base62DigitsAux fuel (n / 62)

/-- Little-endian base-62 digit values of `n` (empty for `0`); `n`
itself bounds the number of digits, so it serves as fuel. -/
def base62Digits (n : Nat) : List Nat := base62DigitsAux n n

/-- `base62::encode`: the base-62 representation of `n` with the
standard alphabet, most significant digit first; `0` encodes as `"0"`. -/
def base62encode (n : Nat) : String :=
  if n = 0 then "0"
  else String.mk (((base62Digits n).reverse).map base62Char)

/-- `Redirector::generate_short_file_name` (`redirector.rs` lines
179–185): base-62 encoding of the `u64` sum of the millisecond
timestamp and the `u16`-accumulated UTF-16 sum of the canonical path,
followed by `".html"`.  The generation instant `nowMs` is
`Utc::now().timestamp_millis() as u64`, passed explicitly to keep the
function pure. -/
def generate_short_file_name (lp : UrlPath) (nowMs : Nat) : String :=
  let name := base62encode ((nowMs + utf16SumU16 lp.val.data) % 2 ^ 64)
  name ++ ".html"

/-! ## The Redirector value and its constructors (`src/redirector.rs`) -/

/-- `RedirectorError` (`redirector.rs` lines 44–72). -/
inductive RedirectorError where
  | FileCreationError
  | ShortLinkNotFound
  | InvalidUrlPath (inner : UrlPathError)
  | FailedToReadRegistry
deriving DecidableEq, Repr

/-- The `Redirector` struct: validated long path, generated short file
name, output directory path. -/
structure Redirector where
  long_path : UrlPath
  short_file_name : String
  path : String
deriving DecidableEq, Repr

/-- `Redirector::new` (`redirector.rs` lines 150–160): validate the
path, generate the short file name, default output directory `"s"`. -/
def Redirector.new (long_path : String) (nowMs : Nat) :
    Except RedirectorError Redirector :=
  match UrlPath.new long_path with
  | .error e => .error (.InvalidUrlPath e)
  | .ok lp => .ok ⟨lp, generate_short_file_name lp nowMs, "s"⟩

/-- `Redirector::default()`: all three fields empty, as produced by the
derived `Default` implementation (`redirector.rs` line 110). -/
def Redirector.default : Redirector := ⟨UrlPath.default, "", ""⟩

/-- `Redirector::set_path` (`redirector.rs` lines 209–211). -/
def Redirector.set_path (r : Redirector) (p : String) : Redirector :=
  { r with path := p }

/-! ## HTML rendering (`impl fmt::Display for Redirector`, lines 347–372) -/

/-- Template text before the first `{target}` splice. -/
def htmlPre : String :=
  "\n    <!DOCTYPE HTML>\n    <html lang=\"en-US\">\n\n    <head>\n        <meta charset=\"UTF-8\">\n        <meta http-equiv=\"refresh\" content=\"0; url="

/-- Template text between the first and second `{target}` splices. -/
def htmlMid1 : String :=
  "\">\n        <script type=\"text/javascript\">\n            window.location.href = \""

/-- Template text between the second and third `{target}` splices. -/
def htmlMid2 : String :=
  "\";\n        </script>\n        <title>Page Redirection</title>\n    </head>\n\n    <body>\n        <!-- Note: don\x27t tell people to \x60click\x60 the link, just tell them that it is a link. -->\n        If you are not redirected automatically, follow this <a href=\x27"

/-- Template text after the third `{target}` splice. -/
def htmlSuf : String :=
  "\x27>link to page</a>.\n    </body>\n\n    </html>\n    "

/-- The rendered redirect document: the raw-string template of the
`Display` implementation with `target = self.long_path.to_string()`
spliced in at its three placeholders. -/
def redirectorHtml (r : Redirector) : String :=
  let target := r.long_path.val
  htmlPre ++ target ++ htmlMid1 ++ target ++ htmlMid2 ++ target ++ htmlSuf

/-! ## Filesystem model and `Redirector::write_redirect` -/

/-- Contents of the registry file from the point of view of
`serde_json::from_reader::<_, HashMap<String, String>>`: either it
parses as a string-to-string mapping or it is corrupt. -/
inductive RegFile where
  | good : List (String × String) → RegFile
  | corrupt : RegFile
deriving DecidableEq, Repr

/-- State of one output directory: whether the directory exists, the
named HTML files it holds (name, contents), and the registry file
(`none` when absent). -/
structure FsState where
  dirExists : Bool
  htmlFiles : List (String × String)
  registryFile : Option RegFile
deriving DecidableEq, Repr

/-- I/O fault injected into one `write_redirect` call, to model the
failure modes of the `File::create` / `write_all` / `sync_all` /
registry-save sequence.  `writeFail k` models `write_all` failing
after `k` bytes reached the file. -/
inductive Fault where
  | noFault
  | createFail
  | writeFail (k : Nat)
  | syncFail
  | registrySaveFail
deriving DecidableEq, Repr

/-- Number of bytes that reach the file before a `writeFail` fault
fires (irrelevant for the other fault kinds). -/
def Fault.writeLimit : Fault → Nat
  | .writeFail k => k
  | _ => 0

/-- `HashMap::get` on the modelled registry mapping. -/
def lookupReg (m : List (String × String)) (k : String) : Option String :=
  match m.find? (fun p => p.1 = k) with
  | some p => some p.2
  | none => none

/-- `HashMap::insert` on the modelled registry mapping. -/
def insertReg (m : List (String × String)) (k v : String) :
    List (String × String) :=
  (k, v) :: m.filter (fun p => !(p.1 = k))

/-- `File::create` followed by writing `c`: creates or truncates the
file at `p`. -/
def setFile (files : List (String × String)) (p c : String) :
    List (String × String) :=
  (p, c) :: files.filter (fun q => !(q.1 = p))

/-- Look up a file's contents by name. -/
def getFile (files : List (String × String)) (p : String) : Option String :=
  match files.find? (fun q => q.1 = p) with
  | some q => some q.2
  | none => none

/-- `self.path.join(name)` for the names involved here. -/
def joinPath (dir name : String) : String := dir ++ "/" ++ name

/-- Steps of `write_redirect` from the point where the registry mapping
is in hand (`redirector.rs` lines 310–333): compute the target file
path, return the registered path on a registry hit, otherwise create
and write the HTML file, sync it, insert the new entry and save the
registry.  The injected `fault` selects which I/O call, if any, fails. -/
def write_redirect_core (r : Redirector) (fault : Fault)
    (registry : List (String × String)) (st : FsState) :
    Except RedirectorError String × FsState :=
  let filePath := joinPath r.path r.short_file_name
  match lookupReg registry r.long_path.val with
  | some existing => (.ok existing, st)
  | none =>
      let partialContent := String.mk ((redirectorHtml r).data.take fault.writeLimit)
      let fullFiles := setFile st.htmlFiles filePath (redirectorHtml r)
      let partFiles := setFile st.htmlFiles filePath partialContent
      match fault with
      | .createFail => (.error .FileCreationError, st)
      | .writeFail _ => (.error .FileCreationError, { st with htmlFiles := partFiles })
      | .syncFail => (.error .FileCreationError, { st with htmlFiles := fullFiles })
      | .registrySaveFail => (.error .FileCreationError, { st with htmlFiles := fullFiles })
      | .noFault =>
          let newReg := some (RegFile.good (insertReg registry r.long_path.val filePath))
          (.ok filePath, { st with htmlFiles := fullFiles, registryFile := newReg })

/-- The `fs::create_dir_all` step of `write_redirect` (`redirector.rs`
lines 299–301): create the output directory when it does not exist. -/
def ensureDir (st : FsState) : FsState :=
  if st.dirExists then st else { st with dirExists := true }

/-- `Redirector::write_redirect` (`redirector.rs` lines 297–334):
create the output directory if missing, load `registry.json` (absent
file means an empty mapping, a present-but-unparsable file is a
`FailedToReadRegistry` error), then run the core steps. -/
def write_redirect (r : Redirector) (fault : Fault) (st : FsState) :
    Except RedirectorError String × FsState :=
  match (ensureDir st).registryFile with
  | some .corrupt => (.error .FailedToReadRegistry, ensureDir st)
  | some (.good m) => write_redirect_core r fault m (ensureDir st)
  | none => write_redirect_core r fault [] (ensureDir st)

/-- A directory that does not exist yet. -/
def freshDir : FsState := ⟨false, [], none⟩

/-- The registry mapping that `write_redirect` works with for a given
starting state: the parsed mapping when the registry file is present
and parses, the empty mapping when it is absent. -/
def registryOf (st : FsState) : List (String × String) :=
  match st.registryFile with
  | some (.good m) => m
  | _ => []

/-! ## Auxiliary predicates used to state the claims -/

/-- Whether a character list contains two adjacent slashes (an empty
path segment). -/
def hasDS : List Char → Bool
  | [] => false
  | [_] => false
  | a :: b :: rest => (a == '/' && b == '/') || hasDS (b :: rest)

/-- The base-62 alphabet named by the spec, in its fixed order. -/
def base62Alphabet : String :=
  "0123456789ABCDEFGHIJKLMNOPQRSTUVWXYZabcdefghijklmnopqrstuvwxyz"

/-- The CanonicalPath invariant as the spec's data model states it
(spec section 3), written from the spec's words for comparison with
values the code can produce: begins and ends with `/`, holds at least
one non-empty segment, no empty segment, and no `;`, `#` or `?`. -/
def specCanonicalPathInvariant (s : String) : Bool :=
  (s.data.head? == some '/') && (s.data.getLast? == some '/') &&
  decide (3 ≤ s.data.length) && !hasDS s.data &&
  s.data.all (fun c => !(c == ';' || c == '#' || c == '?'))

/-! ## Structural lemmas about the validation matcher -/

theorem bodyStep_some {st st2 : BodyState} {c : Char}
    (h : bodyStep st c = some st2) : isSegChar c = true ∨ c = '/' := by
  by_cases hseg : isSegChar c = true
  · exact Or.inl hseg
  · by_cases hsl : c = '/'
    · exact Or.inr hsl
    · cases st <;> simp [bodyStep, hseg, hsl] at h

theorem bodyStep_slash {st st2 : BodyState}
    (h : bodyStep st '/' = some st2) : st = .inSeg ∧ st2 = .afterSlash := by
  cases st <;> simp [bodyStep, isSegChar] at h
  exact ⟨rfl, h.symm⟩

theorem bodyStep_init {c : Char} {st2 : BodyState}
    (h : bodyStep .init c = some st2) : isSegChar c = true := by
  by_cases hseg : isSegChar c = true
  · exact hseg
  · simp [bodyStep, hseg] at h

theorem bodyMatch_cons {st : BodyState} {c : Char} {cs : List Char}
    (h : bodyMatch st (c :: cs) = true) :
    ∃ st2, bodyStep st c = some st2 ∧ bodyMatch st2 cs = true := by
  unfold bodyMatch at h
  cases hstep : bodyStep st c with
  | none => rw [hstep] at h; simp at h
  | some st2 => rw [hstep] at h; exact ⟨st2, rfl, h⟩

theorem bodyMatch_chars {cs : List Char} :
    ∀ {st}, bodyMatch st cs = true → ∀ c ∈ cs, isSegChar c = true ∨ c = '/' := by
  induction cs with
  | nil => intro st _ c hc; cases hc
  | cons a cs ih =>
      intro st h c hc
      obtain ⟨st2, hstep, hrest⟩ := bodyMatch_cons h
      rcases List.mem_cons.mp hc with rfl | hc
      · exact bodyStep_some hstep
      · exact ih hrest c hc

theorem bodyMatch_noDS {cs : List Char} :
    ∀ {st}, bodyMatch st cs = true → hasDS cs = false := by
  induction cs with
  | nil => intro st _; rfl
  | cons a cs ih =>
      intro st h
      obtain ⟨st2, hstep, hrest⟩ := bodyMatch_cons h
      cases cs with
      | nil => rfl
      | cons b cs2 =>
          have h2 : hasDS (b :: cs2) = false := ih hrest
          have hpair : (a == '/' && b == '/') = false := by
            by_cases ha : a = '/'
            · subst ha
              obtain ⟨hst, hst2⟩ := bodyStep_slash hstep
              subst hst2
              obtain ⟨st3, hstep2, _⟩ := bodyMatch_cons hrest
              by_cases hb : b = '/'
              · subst hb
                obtain ⟨hcontra, _⟩ := bodyStep_slash hstep2
                cases hcontra
              · simp [hb]
            · simp [ha]
          simp [hasDS, hpair, h2]

theorem hasDS_append_pair (l rest : List Char) :
    hasDS (l ++ '/' :: '/' :: rest) = true := by
  induction l with
  | nil => simp [hasDS]
  | cons a l ih =>
      cases l with
      | nil => simp [hasDS]
      | cons b l2 =>
          simp only [List.cons_append] at ih ⊢
          simp [hasDS, ih]

theorem hasDS_append_left {l : List Char} (l2 : List Char)
    (h : hasDS l = true) : hasDS (l ++ l2) = true := by
  induction l with
  | nil => simp [hasDS] at h
  | cons a l ih =>
      cases l with
      | nil => simp [hasDS] at h
      | cons b l3 =>
          simp only [hasDS, Bool.or_eq_true] at h
          rcases h with h | h
          · simp [hasDS, h]
          · have := ih h
            simp only [List.cons_append] at this ⊢
            simp [hasDS, this]

theorem isSegChar_not_bad {c : Char} (h : isSegChar c = true) :
    c ≠ ';' ∧ c ≠ '#' ∧ c ≠ '?' := by
  refine ⟨?_, ?_, ?_⟩ <;> intro hc <;> subst hc <;> simp [isSegChar] at h

/-- Every accepted body decomposes as a non-empty middle part, with no
leading, trailing or doubled slash and no forbidden character, followed
by an optional final slash. -/
theorem bodyMatch_init_decomp {cs : List Char}
    (h : bodyMatch .init cs = true) :
    ∃ mid, mid ≠ [] ∧ mid.head? ≠ some '/' ∧ mid.getLast? ≠ some '/' ∧
      (∀ c ∈ mid, isSegChar c = true ∨ c = '/') ∧ hasDS mid = false ∧
      ((cs.getLast? = some '/' ∧ cs = mid ++ ['/']) ∨
       (cs.getLast? ≠ some '/' ∧ cs = mid)) := by
  have hne : cs ≠ [] := by
    rintro rfl
    exact absurd h (by decide)
  have hhead : cs.head? ≠ some '/' := by
    cases cs with
    | nil => simp
    | cons a cs2 =>
        obtain ⟨st2, hstep, _⟩ := bodyMatch_cons h
        intro hh
        simp only [List.head?_cons, Option.some_inj] at hh
        subst hh
        obtain ⟨hcontra, _⟩ := bodyStep_slash hstep
        cases hcontra
  have hchars := bodyMatch_chars h
  have hds := bodyMatch_noDS h
  by_cases hlast : cs.getLast? = some '/'
  · have heq : cs.dropLast ++ ['/'] = cs :=
      List.dropLast_append_getLast? '/' (Option.mem_def.mpr hlast)
    have hmidne : cs.dropLast ≠ [] := by
      intro hmn
      rw [hmn, List.nil_append] at heq
      rw [← heq] at hhead
      simp at hhead
    refine ⟨cs.dropLast, hmidne, ?_, ?_, ?_, ?_, Or.inl ⟨hlast, heq.symm⟩⟩
    · rw [← heq] at hhead
      rwa [List.head?_append_of_ne_nil _ hmidne] at hhead
    · intro hml
      have heq2 : cs.dropLast.dropLast ++ ['/'] = cs.dropLast :=
        List.dropLast_append_getLast? '/' (Option.mem_def.mpr hml)
      rw [← heq2, List.append_assoc] at heq
      have : hasDS cs = true := by
        rw [← heq]
        exact hasDS_append_pair _ []
      rw [this] at hds
      cases hds
    · intro c hc
      exact hchars c (by rw [← heq]; exact List.mem_append_left _ hc)
    · by_contra hmd
      have hmd2 : hasDS cs.dropLast = true := by
        cases hd2 : hasDS cs.dropLast with
        | true => rfl
        | false => exact absurd hd2 hmd
      have : hasDS cs = true := by
        rw [← heq]
        exact hasDS_append_left _ hmd2
      rw [this] at hds
      cases hds
  · exact ⟨cs, hne, hhead, hlast, hchars, hds, Or.inr ⟨hlast, rfl⟩⟩

theorem data_slash_append (s : String) : ("/" ++ s).data = '/' :: s.data := by
  rw [String.data_append]; rfl

theorem data_append_slash (s : String) : (s ++ "/").data = s.data ++ ['/'] := by
  rw [String.data_append]

/-- Facts holding of every input the validation regex accepts: it is
neither empty nor the bare root, all its characters are allowed, and it
has no doubled slash. -/
theorem reMatch_facts {s : String} (h : reMatch s = true) :
    s.data ≠ [] ∧ s.data ≠ ['/'] ∧
    (∀ c ∈ s.data, isSegChar c = true ∨ c = '/') ∧ hasDS s.data = false := by
  unfold reMatch at h
  generalize hsd : s.data = cs at h ⊢
  cases cs with
  | nil => exact absurd h (by decide)
  | cons a rest =>
      replace h : (if a = '/' then bodyMatch .init rest
          else bodyMatch .init (a :: rest)) = true := h
      by_cases ha : a = '/'
      · subst ha
        rw [if_pos rfl] at h
        have hrne : rest ≠ [] := by
          rintro rfl
          exact absurd h (by decide)
        have hchars := bodyMatch_chars h
        have hds := bodyMatch_noDS h
        have hhd : rest.head? ≠ some '/' := by
          cases rest with
          | nil => simp
          | cons b r2 =>
              obtain ⟨st2, hstep, _⟩ := bodyMatch_cons h
              have hseg := bodyStep_init hstep
              intro hh
              simp only [List.head?_cons, Option.some_inj] at hh
              subst hh
              simp [isSegChar] at hseg
        refine ⟨by simp, ?_, ?_, ?_⟩
        · intro hcontra
          injection hcontra with _ h2
          exact hrne h2
        · intro c hc
          rcases List.mem_cons.mp hc with rfl | hc
          · exact Or.inr rfl
          · exact hchars c hc
        · cases rest with
          | nil => rfl
          | cons b r2 =>
              have hb : (b == '/') = false := by
                cases hbe : b == '/' with
                | true => exact absurd (by simpa using hbe) (by simpa using hhd)
                | false => rfl
              simp [hasDS, hb, hds]
      · rw [if_neg ha] at h
        have hchars := bodyMatch_chars h
        have hds := bodyMatch_noDS h
        refine ⟨by simp, ?_, hchars, hds⟩
        intro hcontra
        injection hcontra with h1 _
        exact ha h1

/-- Core structural fact: every canonical path produced by
`UrlPath.new` consists of exactly one leading slash, a non-empty middle
with no leading, trailing or doubled slash and only allowed characters,
and exactly one trailing slash. -/
theorem urlPath_new_ok_shape {s : String} {lp : UrlPath}
    (h : UrlPath.new s = .ok lp) :
    ∃ mid, lp.val.data = '/' :: (mid ++ ['/']) ∧ mid ≠ [] ∧
      mid.head? ≠ some '/' ∧ mid.getLast? ≠ some '/' ∧
      (∀ c ∈ mid, isSegChar c = true ∨ c = '/') ∧ hasDS mid = false := by
  unfold UrlPath.new at h
  by_cases hre : reMatch s = true
  · rw [if_pos hre] at h
    simp only [Except.ok.injEq] at h
    subst h
    show ∃ mid, (addTrailing (addLeading s)).data = _ ∧ _
    unfold reMatch at hre
    cases hsd : s.data with
    | nil => rw [hsd] at hre; exact absurd hre (by decide)
    | cons a rest =>
        rw [hsd] at hre
        replace hre : (if a = '/' then bodyMatch .init rest
            else bodyMatch .init (a :: rest)) = true := hre
        by_cases ha : a = '/'
        · subst ha
          rw [if_pos rfl] at hre
          obtain ⟨mid, hmne, hmh, hml, hmc, hmd, hdisj⟩ :=
            bodyMatch_init_decomp hre
          have hrne : rest ≠ [] := by
            rintro rfl
            exact absurd hre (by decide)
          have hsw : startsWithSlash s = true := by
            unfold startsWithSlash
            rw [hsd]
            rfl
          have hal : addLeading s = s := by
            unfold addLeading
            rw [hsw]
            simp
          have hlasteq : s.data.getLast? = rest.getLast? := by
            rw [hsd]
            exact List.getLast?_append_of_ne_nil ['/'] hrne
          rcases hdisj with ⟨hrl, hrmid⟩ | ⟨hrl, hrmid⟩
          · have hew : endsWithSlash s = true := by
              unfold endsWithSlash
              rw [hlasteq, hrl]
              rfl
            have hat : addTrailing (addLeading s) = s := by
              rw [hal]
              unfold addTrailing
              rw [hew]
              simp
            refine ⟨mid, ?_, hmne, hmh, hml, hmc, hmd⟩
            rw [hat, hsd, hrmid]
          · have hew : endsWithSlash s = false := by
              unfold endsWithSlash
              rw [hlasteq]
              cases hbe : rest.getLast? == some '/' with
              | true => exact absurd (by simpa using hbe) hrl
              | false => rfl
            have hat : addTrailing (addLeading s) = s ++ "/" := by
              rw [hal]
              unfold addTrailing
              rw [hew]
              simp
            refine ⟨mid, ?_, hmne, hmh, hml, hmc, hmd⟩
            rw [hat, data_append_slash, hsd, hrmid]
            simp
        · rw [if_neg ha] at hre
          obtain ⟨mid, hmne, hmh, hml, hmc, hmd, hdisj⟩ :=
            bodyMatch_init_decomp hre
          have hsw : startsWithSlash s = false := by
            unfold startsWithSlash
            rw [hsd]
            simpa using ha
          have hal : addLeading s = "/" ++ s := by
            unfold addLeading
            rw [hsw]
            simp
          have haldata : (addLeading s).data = '/' :: (a :: rest) := by
            rw [hal, data_slash_append, hsd]
          have hlasteq : (addLeading s).data.getLast? = (a :: rest).getLast? := by
            rw [haldata]
            exact List.getLast?_append_of_ne_nil ['/'] (by simp)
          rcases hdisj with ⟨hrl, hrmid⟩ | ⟨hrl, hrmid⟩
          · have hew : endsWithSlash (addLeading s) = true := by
              unfold endsWithSlash
              rw [hlasteq, hrl]
              rfl
            have hat : addTrailing (addLeading s) = addLeading s := by
              unfold addTrailing
              rw [hew]
              simp
            refine ⟨mid, ?_, hmne, hmh, hml, hmc, hmd⟩
            rw [hat, haldata, hrmid]
          · have hew : endsWithSlash (addLeading s) = false := by
              unfold endsWithSlash
              rw [hlasteq]
              cases hbe : (a :: rest).getLast? == some '/' with
              | true => exact absurd (by simpa using hbe) hrl
              | false => rfl
            have hat : addTrailing (addLeading s) = addLeading s ++ "/" := by
              unfold addTrailing
              rw [hew]
              simp
            refine ⟨mid, ?_, hmne, hmh, hml, hmc, hmd⟩
            rw [hat, data_append_slash, haldata, hrmid]
            simp
  · rw [if_neg hre] at h
    cases h

/-! ## Claims about validation and normalization -/

/-- C6: normalization is a pure function mapping the four equivalent
spellings of `api/v1` to the identical canonical value `"/api/v1/"`;
in general every accepted input normalizes to a value with exactly one
leading and exactly one trailing slash (the middle part is non-empty
and neither starts nor ends with a slash, so a slash already present is
never duplicated and a missing one is inserted). -/
theorem C6_normalization_canonical :
    UrlPath.new "api/v1" = .ok ⟨"/api/v1/"⟩ ∧
    UrlPath.new "/api/v1" = .ok ⟨"/api/v1/"⟩ ∧
    UrlPath.new "api/v1/" = .ok ⟨"/api/v1/"⟩ ∧
    UrlPath.new "/api/v1/" = .ok ⟨"/api/v1/"⟩ ∧
    ∀ s lp, UrlPath.new s = .ok lp →
      ∃ mid, lp.val.data = '/' :: (mid ++ ['/']) ∧ mid ≠ [] ∧
        mid.head? ≠ some '/' ∧ mid.getLast? ≠ some '/' := by
  refine ⟨by decide, by decide, by decide, by decide, ?_⟩
  intro s lp h
  obtain ⟨mid, h1, h2, h3, h4, _, _⟩ := urlPath_new_ok_shape h
  exact ⟨mid, h1, h2, h3, h4⟩

/-- Witness for C6: the general part, instantiated at input `"api/v1"`
and its canonical value. -/
theorem C6_normalization_canonical_witness :
    ∃ mid, (UrlPath.mk "/api/v1/").val.data = '/' :: (mid ++ ['/']) ∧
      mid ≠ [] ∧ mid.head? ≠ some '/' ∧ mid.getLast? ≠ some '/' :=
  C6_normalization_canonical.2.2.2.2 "api/v1" ⟨"/api/v1/"⟩ (by decide)

/-- C7: validation rejects, with the `InvalidPath` error and no other
effect (`UrlPath.new` is a pure function with no other output), every
input that is empty, the bare root, or contains `;`, `#`, `?` or a
doubled slash anywhere; in particular the five concrete rejection
examples all fail with `InvalidPath`. -/
theorem C7_rejection_set :
    (∀ s : String,
        (s = "" ∨ s = "/" ∨ (∃ c ∈ s.data, c = ';' ∨ c = '#' ∨ c = '?') ∨
          hasDS s.data = true) →
        UrlPath.new s = .error (.InvalidPath s)) ∧
    UrlPath.new "" = .error (.InvalidPath "") ∧
    UrlPath.new "/" = .error (.InvalidPath "/") ∧
    UrlPath.new "api?x=1" = .error (.InvalidPath "api?x=1") ∧
    UrlPath.new "api;x=1" = .error (.InvalidPath "api;x=1") ∧
    UrlPath.new "api//v1" = .error (.InvalidPath "api//v1") := by
  refine ⟨?_, by decide, by decide, by decide, by decide, by decide⟩
  intro s hbad
  have hre : ¬ reMatch s = true := by
    intro hr
    obtain ⟨hne, hroot, hchars, hds⟩ := reMatch_facts hr
    rcases hbad with rfl | rfl | ⟨c, hc, hcb⟩ | hd
    · exact hne rfl
    · exact hroot rfl
    · rcases hchars c hc with hseg | rfl
      · obtain ⟨h1, h2, h3⟩ := isSegChar_not_bad hseg
        rcases hcb with rfl | rfl | rfl
        · exact h1 rfl
        · exact h2 rfl
        · exact h3 rfl
      · simp at hcb
    · rw [hd] at hds
      cases hds
  unfold UrlPath.new
  rw [if_neg hre]

/-- Witness for C7: the general part, instantiated at `"x#y"` with the
forbidden character `#`. -/
theorem C7_rejection_set_witness :
    UrlPath.new "x#y" = .error (.InvalidPath "x#y") :=
  C7_rejection_set.1 "x#y"
    (Or.inr (Or.inr (Or.inl ⟨'#', by decide, Or.inr (Or.inl rfl)⟩)))

/-- C2 is refuted: the raw input `a"b` passes path validation, and the
resulting canonical path `/a"b/` contains a double quote, a
markup-breaking delimiter of the HTML attribute contexts the value is
interpolated into. -/
theorem C2_counterexample :
    UrlPath.new "a\x22b" = .ok ⟨"/a\x22b/"⟩ ∧
    '\x22' ∈ ("/a\x22b/" : String).data :=
  ⟨by decide, by decide⟩

/-- C2 (amended): validation guarantees only that the canonical path is
free of `;`, `#` and `?`; markup-breaking delimiters such as quotes and
angle brackets are not excluded and can reach the rendered document. -/
theorem C2_amended (s : String) (lp : UrlPath) (h : UrlPath.new s = .ok lp) :
    ∀ c ∈ lp.val.data, c ≠ ';' ∧ c ≠ '#' ∧ c ≠ '?' := by
  obtain ⟨mid, hdata, _, _, _, hmc, _⟩ := urlPath_new_ok_shape h
  intro c hc
  rw [hdata] at hc
  rcases List.mem_cons.mp hc with rfl | hc
  · exact ⟨by decide, by decide, by decide⟩
  · rcases List.mem_append.mp hc with hc | hc
    · rcases hmc c hc with hseg | rfl
      · exact isSegChar_not_bad hseg
      · exact ⟨by decide, by decide, by decide⟩
    · rw [List.mem_singleton.mp hc]
      exact ⟨by decide, by decide, by decide⟩

/-- Witness for C2 (amended) at input `"api/v1"` and character `a`. -/
theorem C2_amended_witness :
    'a' ≠ ';' ∧ 'a' ≠ '#' ∧ 'a' ≠ '?' :=
  C2_amended "api/v1" ⟨"/api/v1/"⟩ (by decide) 'a' (by decide)

/-- C9: `Redirector::default()` is publicly obtainable yet bypasses the
validating factory: its canonical path is the empty string, which
violates the spec's CanonicalPath invariant, and no input to the
validating factory can produce it; its short file name and output
directory are also empty. -/
theorem C9_default_bypasses_factory :
    Redirector.default.long_path.val = "" ∧
    Redirector.default.short_file_name = "" ∧
    Redirector.default.path = "" ∧
    specCanonicalPathInvariant Redirector.default.long_path.val = false ∧
    (∀ s lp, UrlPath.new s = .ok lp → lp ≠ Redirector.default.long_path) := by
  refine ⟨rfl, rfl, rfl, by decide, ?_⟩
  intro s lp h heq
  obtain ⟨mid, hdata, _, _, _, _, _⟩ := urlPath_new_ok_shape h
  rw [heq] at hdata
  exact absurd hdata (by simp [Redirector.default, UrlPath.default])

/-- Witness for C9: the factory-unreachability part at input `"a"`. -/
theorem C9_default_bypasses_factory_witness :
    (⟨"/a/"⟩ : UrlPath) ≠ Redirector.default.long_path :=
  C9_default_bypasses_factory.2.2.2.2 "a" ⟨"/a/"⟩ (by decide)

/-! ## Claims about short-name generation -/

theorem foldl_add_mod (l : List Nat) :
    ∀ a : Nat, l.foldl (fun x u => (x + u) % 65536) (a % 65536) =
      (a + l.sum) % 65536 := by
  induction l with
  | nil => intro a; simp
  | cons u l ih =>
      intro a
      show l.foldl _ ((a % 65536 + u) % 65536) = _
      rw [Nat.mod_add_mod, ih (a + u)]
      simp [Nat.add_assoc]

/-- The `u16` accumulation of the code equals the spec's mathematical
sum reduced modulo `2 ^ 16`. -/
theorem utf16SumU16_eq (cs : List Char) :
    utf16SumU16 cs = utf16Sum cs % 65536 := by
  unfold utf16SumU16 utf16Sum
  simpa using foldl_add_mod ((cs.map utf16Units).flatten) 0

theorem base62DigitsAux_lt :
    ∀ (fuel n : Nat), ∀ d ∈ base62DigitsAux fuel n, d < 62 := by
  intro fuel
  induction fuel with
  | zero => intro n d hd; cases hd
  | succ fuel ih =>
      intro n d hd
      unfold base62DigitsAux at hd
      split at hd
      · cases hd
      · rcases List.mem_cons.mp hd with rfl | hd
        · exact Nat.mod_lt _ (by decide)
        · exact ih _ d hd

/-- Every character base-62 encoding emits belongs to the fixed
`0-9A-Za-z` alphabet. -/
theorem base62encode_chars (n : Nat) :
    ∀ c ∈ (base62encode n).data, c ∈ base62Alphabet.data := by
  unfold base62encode
  split
  · intro c hc
    replace hc : c ∈ ['0'] := hc
    rw [List.mem_singleton.mp hc]
    decide
  · intro c hc
    replace hc : c ∈ (base62Digits n).reverse.map base62Char := hc
    obtain ⟨d, hd, rfl⟩ := List.mem_map.mp hc
    have hlt : d < 62 :=
      base62DigitsAux_lt n n d (List.mem_reverse.mp hd)
    have halph : ∀ d, d < 62 → base62Char d ∈ base62Alphabet.data := by decide
    exact halph d hlt

/-- C1 (amended): for every canonical path and generation instant the
short name is the base-62 encoding, over the fixed `0-9A-Za-z`
alphabet, of the seed followed by the literal `.html` extension; but
the path's contribution to the seed is the UTF-16 code-unit sum
accumulated in a 16-bit integer, i.e. the mathematical sum reduced
modulo `2 ^ 16`, not the full mathematical sum, added to the
millisecond timestamp with `u64` (modulo `2 ^ 64`) arithmetic. -/
theorem C1_seed_base62 (lp : UrlPath) (nowMs : Nat) :
    generate_short_file_name lp nowMs =
      base62encode ((nowMs + utf16Sum lp.val.data % 65536) % 2 ^ 64) ++
        ".html" ∧
    ∀ c ∈ (base62encode ((nowMs + utf16Sum lp.val.data % 65536) % 2 ^ 64)).data,
      c ∈ base62Alphabet.data := by
  constructor
  · unfold generate_short_file_name
    rw [utf16SumU16_eq]
  · exact base62encode_chars _

/-- Witness for C1 (amended) at the canonical path `/a/`, instant 0 and
the first emitted character. -/
theorem C1_seed_base62_witness :
    generate_short_file_name ⟨"/a/"⟩ 0 =
      base62encode ((0 + utf16Sum ("/a/" : String).data % 65536) % 2 ^ 64) ++
        ".html" ∧
    '3' ∈ base62Alphabet.data :=
  ⟨(C1_seed_base62 ⟨"/a/"⟩ 0).1, (C1_seed_base62 ⟨"/a/"⟩ 0).2 '3' (by decide)⟩

/-- C1 is refuted as stated: for the canonical path obtained from the
single character U+FFFD (whose canonical form has UTF-16 sum 65627,
exceeding `u16` range) at instant 0, the generated short name differs
from the base-62 encoding of the full mathematical sum: the code emits
`1T.html` (sum wrapped to 91) where the claim demands `H4V.html`. -/
theorem C1_counterexample :
    UrlPath.new (String.mk [Char.ofNat 65533]) =
      .ok ⟨String.mk ['/', Char.ofNat 65533, '/']⟩ ∧
    generate_short_file_name ⟨String.mk ['/', Char.ofNat 65533, '/']⟩ 0 ≠
      base62encode
        (0 + utf16Sum (String.mk ['/', Char.ofNat 65533, '/']).data) ++
        ".html" :=
  ⟨by decide, by decide⟩

/-! ## Claims about write_redirect -/

theorem getFile_setFile (fs : List (String × String)) (p c : String) :
    getFile (setFile fs p c) p = some c := by
  simp [getFile, setFile, List.find?]

theorem lookupReg_nil (k : String) : lookupReg [] k = none := rfl

/-- Success of the core write steps means: either the registry already
had the path, which is returned verbatim with the state untouched, or
the returned path is the freshly joined file path and the file at it
holds the complete rendered document. -/
theorem write_redirect_core_ok {r : Redirector} {fault : Fault}
    {m : List (String × String)} {st st2 : FsState} {p : String}
    (h : write_redirect_core r fault m st = (.ok p, st2)) :
    (lookupReg m r.long_path.val = some p ∧ st2 = st) ∨
    (p = joinPath r.path r.short_file_name ∧
      getFile st2.htmlFiles p = some (redirectorHtml r)) := by
  unfold write_redirect_core at h
  cases hlook : lookupReg m r.long_path.val with
  | some existing =>
      rw [hlook] at h
      simp only [Prod.mk.injEq, Except.ok.injEq] at h
      exact Or.inl ⟨by rw [h.1], h.2.symm⟩
  | none =>
      rw [hlook] at h
      cases fault <;> simp only [Prod.mk.injEq, Except.ok.injEq] at h
      · obtain ⟨hp, hst2⟩ := h
        subst hp
        subst hst2
        exact Or.inr ⟨rfl, getFile_setFile _ _ _⟩
      · cases h.1
      · cases h.1
      · cases h.1
      · cases h.1

/-- C4: when the registry file is present but cannot be parsed,
`write_redirect` fails with the registry-corrupt error kind
(`FailedToReadRegistry`) and modifies neither the registry file nor any
HTML file; the corrupt registry is never discarded or treated as an
empty mapping. -/
theorem C4_corrupt_registry (r : Redirector) (fault : Fault) (st : FsState)
    (h : st.registryFile = some .corrupt) :
    (write_redirect r fault st).1 = .error .FailedToReadRegistry ∧
    (write_redirect r fault st).2.registryFile = st.registryFile ∧
    (write_redirect r fault st).2.htmlFiles = st.htmlFiles := by
  cases hd : st.dirExists <;> simp [write_redirect, ensureDir, hd, h]

/-- Witness for C4 at a concrete corrupt-registry state. -/
theorem C4_corrupt_registry_witness :
    (write_redirect ⟨⟨"/p/"⟩, "a.html", "d"⟩ .noFault
        ⟨true, [], some .corrupt⟩).1 = .error .FailedToReadRegistry ∧
    (write_redirect ⟨⟨"/p/"⟩, "a.html", "d"⟩ .noFault
        ⟨true, [], some .corrupt⟩).2.registryFile =
      (⟨true, [], some .corrupt⟩ : FsState).registryFile ∧
    (write_redirect ⟨⟨"/p/"⟩, "a.html", "d"⟩ .noFault
        ⟨true, [], some .corrupt⟩).2.htmlFiles =
      (⟨true, [], some .corrupt⟩ : FsState).htmlFiles :=
  C4_corrupt_registry ⟨⟨"/p/"⟩, "a.html", "d"⟩ .noFault
    ⟨true, [], some .corrupt⟩ rfl

/-- C10: on a registry hit, `write_redirect` returns the stored file
path without checking that the file still exists on disk and without
writing anything: the HTML files and the registry are untouched
regardless of any fault, and a stored file that is missing from the
directory is not recreated. -/
theorem C10_stale_registry_hit (r : Redirector) (fault : Fault)
    (st : FsState) (m : List (String × String)) (stored : String)
    (hreg : st.registryFile = some (.good m))
    (hhit : lookupReg m r.long_path.val = some stored) :
    (write_redirect r fault st).1 = .ok stored ∧
    (write_redirect r fault st).2.htmlFiles = st.htmlFiles ∧
    (write_redirect r fault st).2.registryFile = st.registryFile ∧
    (getFile st.htmlFiles stored = none →
      getFile (write_redirect r fault st).2.htmlFiles stored = none) := by
  cases hd : st.dirExists <;>
    simp [write_redirect, write_redirect_core, ensureDir, hd, hreg, hhit]

/-- Witness for C10: a registry entry whose file is absent from the
directory is returned as success and not recreated. -/
theorem C10_stale_registry_hit_witness :
    (write_redirect ⟨⟨"/p/"⟩, "a.html", "d"⟩ .noFault
        ⟨true, [], some (.good [("/p/", "d/old.html")])⟩).1 =
      .ok "d/old.html" ∧
    (write_redirect ⟨⟨"/p/"⟩, "a.html", "d"⟩ .noFault
        ⟨true, [], some (.good [("/p/", "d/old.html")])⟩).2.htmlFiles =
      (⟨true, [], some (.good [("/p/", "d/old.html")])⟩ : FsState).htmlFiles ∧
    (write_redirect ⟨⟨"/p/"⟩, "a.html", "d"⟩ .noFault
        ⟨true, [], some (.good [("/p/", "d/old.html")])⟩).2.registryFile =
      (⟨true, [], some (.good [("/p/", "d/old.html")])⟩ : FsState).registryFile ∧
    (getFile (⟨true, [], some (.good [("/p/", "d/old.html")])⟩ : FsState).htmlFiles
        "d/old.html" = none →
      getFile (write_redirect ⟨⟨"/p/"⟩, "a.html", "d"⟩ .noFault
          ⟨true, [], some (.good [("/p/", "d/old.html")])⟩).2.htmlFiles
        "d/old.html" = none) :=
  C10_stale_registry_hit ⟨⟨"/p/"⟩, "a.html", "d"⟩ .noFault
    ⟨true, [], some (.good [("/p/", "d/old.html")])⟩ [("/p/", "d/old.html")]
    "d/old.html" rfl (by decide)

/-- C3: creating a redirect into a fresh directory returns the file
path P1 and leaves exactly one HTML file (at P1, holding the rendered
document) plus the registry file with the single entry; a second
`write_redirect` for the same canonical path into the same directory —
by a `Redirector` whose freshly generated short name may differ —
returns the identical P1 and performs no file or registry write (the
state is returned unchanged). -/
theorem C3_registry_idempotent (r1 r2 : Redirector)
    (hlong : r1.long_path = r2.long_path) (_hdir : r1.path = r2.path)
    (st0 : FsState) (hfiles : st0.htmlFiles = [])
    (hreg : st0.registryFile = none) :
    (write_redirect r1 .noFault st0).1 =
      .ok (joinPath r1.path r1.short_file_name) ∧
    (write_redirect r1 .noFault st0).2.htmlFiles =
      [(joinPath r1.path r1.short_file_name, redirectorHtml r1)] ∧
    (write_redirect r1 .noFault st0).2.registryFile =
      some (.good [(r1.long_path.val, joinPath r1.path r1.short_file_name)]) ∧
    write_redirect r2 .noFault ((write_redirect r1 .noFault st0).2) =
      (.ok (joinPath r1.path r1.short_file_name),
        (write_redirect r1 .noFault st0).2) := by
  have hlongval : r2.long_path.val = r1.long_path.val := by rw [hlong]
  cases hd : st0.dirExists <;>
    refine ⟨?_, ?_, ?_, ?_⟩ <;>
      simp [write_redirect, write_redirect_core, ensureDir, hd, hreg, hfiles,
        lookupReg, insertReg, setFile, List.find?, hlongval]

/-- Witness for C3 at two concrete redirectors sharing the canonical
path `/p/` and directory `d` but carrying different short names. -/
theorem C3_registry_idempotent_witness :
    (write_redirect ⟨⟨"/p/"⟩, "a.html", "d"⟩ .noFault freshDir).1 =
      .ok (joinPath "d" "a.html") ∧
    (write_redirect ⟨⟨"/p/"⟩, "a.html", "d"⟩ .noFault freshDir).2.htmlFiles =
      [(joinPath "d" "a.html", redirectorHtml ⟨⟨"/p/"⟩, "a.html", "d"⟩)] ∧
    (write_redirect ⟨⟨"/p/"⟩, "a.html", "d"⟩ .noFault freshDir).2.registryFile =
      some (.good [("/p/", joinPath "d" "a.html")]) ∧
    write_redirect ⟨⟨"/p/"⟩, "b.html", "d"⟩ .noFault
        ((write_redirect ⟨⟨"/p/"⟩, "a.html", "d"⟩ .noFault freshDir).2) =
      (.ok (joinPath "d" "a.html"),
        (write_redirect ⟨⟨"/p/"⟩, "a.html", "d"⟩ .noFault freshDir).2) :=
  C3_registry_idempotent ⟨⟨"/p/"⟩, "a.html", "d"⟩ ⟨⟨"/p/"⟩, "b.html", "d"⟩
    rfl rfl freshDir rfl rfl

/-- C5 is refuted as stated: injecting a write failure after 5 bytes
into a fresh-directory `write_redirect` reports an error but leaves a
file at the final path whose content is a strict prefix of the
document — the failed write leaves a half-written file visible at the
final path rather than the file being absent. -/
theorem C5_counterexample :
    (write_redirect ⟨⟨"/p/"⟩, "a.html", "d"⟩ (.writeFail 5) freshDir).1 =
      .error .FileCreationError ∧
    getFile (write_redirect ⟨⟨"/p/"⟩, "a.html", "d"⟩ (.writeFail 5)
        freshDir).2.htmlFiles (joinPath "d" "a.html") =
      some (String.mk
        ((redirectorHtml ⟨⟨"/p/"⟩, "a.html", "d"⟩).data.take 5)) ∧
    String.mk ((redirectorHtml ⟨⟨"/p/"⟩, "a.html", "d"⟩).data.take 5) ≠
      redirectorHtml ⟨⟨"/p/"⟩, "a.html", "d"⟩ :=
  ⟨by decide, by decide, by decide⟩

/-- Lifting of `write_redirect_core_ok` through directory creation and
registry loading: a successful `write_redirect` either served a
registry hit (returning the stored path, HTML files untouched) or wrote
the complete document at the freshly joined path. -/
theorem write_redirect_ok {r : Redirector} {fault : Fault}
    {st st2 : FsState} {p : String}
    (h : write_redirect r fault st = (.ok p, st2)) :
    (lookupReg (registryOf st) r.long_path.val = some p ∧
      st2.htmlFiles = st.htmlFiles) ∨
    (p = joinPath r.path r.short_file_name ∧
      getFile st2.htmlFiles p = some (redirectorHtml r)) := by
  unfold write_redirect at h
  have hrf : (ensureDir st).registryFile = st.registryFile := by
    unfold ensureDir
    cases st.dirExists <;> simp
  have hhf : (ensureDir st).htmlFiles = st.htmlFiles := by
    unfold ensureDir
    cases st.dirExists <;> simp
  rw [hrf] at h
  rcases hregf : st.registryFile with _ | rf
  · rw [hregf] at h
    rcases write_redirect_core_ok h with ⟨hl, _⟩ | ⟨hp, hg⟩
    · rw [lookupReg_nil] at hl
      cases hl
    · exact Or.inr ⟨hp, hg⟩
  · cases rf with
    | corrupt =>
        rw [hregf] at h
        exact Except.noConfusion (congrArg Prod.fst h)
    | good m =>
        rw [hregf] at h
        rcases write_redirect_core_ok h with ⟨hl, hst⟩ | ⟨hp, hg⟩
        · refine Or.inl ⟨?_, ?_⟩
          · have hro : registryOf st = m := by
              unfold registryOf
              rw [hregf]
            rw [hro]
            exact hl
          · rw [hst]
            exact hhf
        · exact Or.inr ⟨hp, hg⟩

/-- C5 (amended): when `write_redirect` reports success, either the
registry already mapped the canonical path (the stored path is returned
and the HTML files are untouched), or the file at the returned path
holds the complete rendered document — success is never reported for a
half-written file; on failure, however, a partially written file can
remain visible at the final path (see the counterexample). -/
theorem C5_success_means_complete (r : Redirector) (fault : Fault)
    (st : FsState) (p : String)
    (h : (write_redirect r fault st).1 = .ok p) :
    getFile (write_redirect r fault st).2.htmlFiles p =
      some (redirectorHtml r) ∨
    lookupReg (registryOf st) r.long_path.val = some p := by
  rcases hw : write_redirect r fault st with ⟨res, st2⟩
  rw [hw] at h
  simp only at h
  subst h
  rcases write_redirect_ok hw with ⟨hl, _⟩ | ⟨_, hg⟩
  · exact Or.inr hl
  · exact Or.inl hg

/-- Witness for C5 (amended) at a concrete successful call. -/
theorem C5_success_means_complete_witness :
    getFile (write_redirect ⟨⟨"/p/"⟩, "a.html", "d"⟩ .noFault
        freshDir).2.htmlFiles "d/a.html" =
      some (redirectorHtml ⟨⟨"/p/"⟩, "a.html", "d"⟩) ∨
    lookupReg (registryOf freshDir) "/p/" = some "d/a.html" :=
  C5_success_means_complete ⟨⟨"/p/"⟩, "a.html", "d"⟩ .noFault freshDir
    "d/a.html" (by decide)

/-! ## Claim about document rendering -/

theorem string_append_assoc (a b c : String) : a ++ b ++ c = a ++ (b ++ c) :=
  String.ext (by simp [String.data_append, List.append_assoc])

set_option maxRecDepth 8192 in
/-- C8: rendering the redirect document is a pure function of the
redirector value (`redirectorHtml` is a Lean function, hence
deterministic), and the canonical path appears verbatim and
byte-for-byte identically in all three redirect mechanisms: the meta
refresh (`url=<path>`), the inline script assignment
(`window.location.href = "<path>";`) and the fallback hyperlink
(`<a href='<path>'>`). -/
theorem C8_document_agreement (r : Redirector) :
    ∃ A B C D : String,
      redirectorHtml r =
        A ++ ("url=" ++ r.long_path.val) ++
        B ++ ("window.location.href = \x22" ++ r.long_path.val ++ "\x22;") ++
        C ++ ("<a href=\x27" ++ r.long_path.val ++ "\x27>") ++ D := by
  refine
    ⟨"\n    <!DOCTYPE HTML>\n    <html lang=\"en-US\">\n\n    <head>\n        <meta charset=\"UTF-8\">\n        <meta http-equiv=\"refresh\" content=\"0; ",
     "\">\n        <script type=\"text/javascript\">\n            ",
     "\n        </script>\n        <title>Page Redirection</title>\n    </head>\n\n    <body>\n        <!-- Note: don\x27t tell people to \x60click\x60 the link, just tell them that it is a link. -->\n        If you are not redirected automatically, follow this ",
     "link to page</a>.\n    </body>\n\n    </html>\n    ", ?_⟩
  have h1 : htmlPre =
      "\n    <!DOCTYPE HTML>\n    <html lang=\"en-US\">\n\n    <head>\n        <meta charset=\"UTF-8\">\n        <meta http-equiv=\"refresh\" content=\"0; " ++
        "url=" := by decide
  have h2 : htmlMid1 =
      "\">\n        <script type=\"text/javascript\">\n            " ++
        "window.location.href = \x22" := by decide
  have h3 : htmlMid2 =
      "\x22;" ++
        ("\n        </script>\n        <title>Page Redirection</title>\n    </head>\n\n    <body>\n        <!-- Note: don\x27t tell people to \x60click\x60 the link, just tell them that it is a link. -->\n        If you are not redirected automatically, follow this " ++
          "<a href=\x27") := by decide
  have h4 : htmlSuf =
      "\x27>" ++ "link to page</a>.\n    </body>\n\n    </html>\n    " := by
    decide
  unfold redirectorHtml
  rw [h1, h2, h3, h4]
  simp only [string_append_assoc]

end LinkBridge
